import Mathlib

/-!
Formal model of the pomodoro timer application (src/main.rs).

The program is a Slint GUI pomodoro timer.  Its core is a small state
machine: an AppState record (seconds_left, mode, sessions_completed,
config) mutated by four UI callbacks (settings_changed, toggle_timer,
reset_timer, select_file) and a 1 Hz repeating timer tick closure.
The running flag lives in a UI property (get_is_running / set_is_running);
we fold it into the state record as is_running.

Machine integers: the Rust code uses i32 throughout; all values reached
by the claims stay far inside i32 range, so the model uses unbounded Int
(durations parsed from the settings fields are range-checked exactly as
Rust's i32 parse does).

External boundaries are modelled at the narrowest faithful point:
the settings text fields arrive as strings and go through an exact model
of Rust's i32 string parse; the config file arrives as an
Option AppConfig (none = missing file or JSON that fails to deserialize,
both of which the code collapses to the default via unwrap_or_default).
Side effects (alarm playback, desktop notification) are reported as an
optional event carrying the new phase and the notification body string.
-/

/-- Mode enum from main.rs line 28: the three timer phases. -/
inductive Mode where
  | Work
  | ShortBreak
  | LongBreak
deriving DecidableEq

/-- AppConfig struct from main.rs lines 13-19: three durations in minutes
and the alarm file path. -/
structure AppConfig where
  work_m : Int
  short_m : Int
  long_m : Int
  alarm_path : String
deriving DecidableEq

/-- Default AppConfig, main.rs lines 21-25. -/
def AppConfig.default : AppConfig :=
  { work_m := 25, short_m := 5, long_m := 15, alarm_path := "alarm.mp3" }

/-- AppState struct from main.rs lines 30-36, extended with the UI's
is_running boolean property (the code reads it with get_is_running and
writes it with set_is_running). -/
structure AppState where
  seconds_left : Int
  mode : Mode
  sessions_completed : Int
  config : AppConfig
  is_running : Bool
deriving DecidableEq

/-- Decimal digit run parser: none on an empty or non-digit run,
otherwise the base-10 value.  Helper for parseI32. -/
def parseDigits (cs : List Char) : Option Nat :=
  if cs = [] then none
  else if cs.all Char.isDigit then
    some (cs.foldl (fun a c => a * 10 + (c.toNat - 48)) 0)
  else none

/-- Model of Rust's str::parse::<i32>() as used in the settings callback
(main.rs lines 99-101): an optional single leading sign, then one or more
ASCII digits, rejected on overflow out of the i32 range. -/
def parseI32 (s : String) : Option Int :=
  match s.data with
  | [] => none
  | '+' :: rest =>
    (parseDigits rest).bind fun n =>
      if (n : Int) ≤ 2147483647 then some (n : Int) else none
  | '-' :: rest =>
    (parseDigits rest).bind fun n =>
      if (n : Int) ≤ 2147483648 then some (-(n : Int)) else none
  | cs =>
    (parseDigits cs).bind fun n =>
      if (n : Int) ≤ 2147483647 then some (n : Int) else none

/-- load_config, main.rs lines 38-42: the file read and the serde parse
are external; their combined outcome is an Option AppConfig.  Both a
missing file and undeserializable contents give none, and the code falls
back to the default config (unwrap_or_default at both layers). -/
def load_config (parsed : Option AppConfig) : AppConfig :=
  parsed.getD AppConfig.default

/-- Initial AppState built in main, main.rs lines 85-90: full work
duration, Work mode, zero sessions; the UI is_running property starts
false. -/
def init_state (cfg : AppConfig) : AppState :=
  { seconds_left := cfg.work_m * 60
    mode := Mode.Work
    sessions_completed := 0
    config := cfg
    is_running := false }

/-- Duration table lookup, the match repeated at main.rs lines 105-109
and 155-159: minutes configured for a given mode. -/
def duration_for (c : AppConfig) : Mode → Int
  | Mode.Work => c.work_m
  | Mode.ShortBreak => c.short_m
  | Mode.LongBreak => c.long_m

/-- Timer tick closure, main.rs lines 147-183.  Returns the new state and,
when a phase completes, the completion event: the new phase together with
the desktop-notification body text.  A none event means no completion
fired on this tick.  The code returns immediately when the UI is not
running; otherwise it decrements while seconds_left > 0, and on the else
branch plays the alarm, advances the phase and posts a notification. -/
def tick (s : AppState) : AppState × Option (Mode × String) :=
  if s.is_running = false then (s, none)
  else if s.seconds_left > 0 then
    ({ s with seconds_left := s.seconds_left - 1 }, none)
  else
    match s.mode with
    | Mode.Work =>
      if (s.sessions_completed + 1) % 4 = 0 then
        ({ s with mode := Mode.LongBreak
                  seconds_left := s.config.long_m * 60
                  sessions_completed := s.sessions_completed + 1 },
         some (Mode.LongBreak, "Phase Complete!"))
      else
        ({ s with mode := Mode.ShortBreak
                  seconds_left := s.config.short_m * 60
                  sessions_completed := s.sessions_completed + 1 },
         some (Mode.ShortBreak, "Phase Complete!"))
    | _ =>
      ({ s with mode := Mode.Work, seconds_left := s.config.work_m * 60 },
       some (Mode.Work, "Get to Work!"))

/-- on_settings_changed callback, main.rs lines 96-112: each duration
field is parsed with parse().unwrap_or(previous value); then, only when
the UI is not running, seconds_left is recomputed for the active mode
from the new durations. -/
def settings_changed (s : AppState) (work short long : String) : AppState :=
  let c : AppConfig :=
    { work_m := (parseI32 work).getD s.config.work_m
      short_m := (parseI32 short).getD s.config.short_m
      long_m := (parseI32 long).getD s.config.long_m
      alarm_path := s.config.alarm_path }
  let s1 : AppState := { s with config := c }
  if s.is_running = false then
    { s1 with seconds_left := duration_for c s.mode * 60 }
  else s1

/-- on_toggle_timer callback, main.rs lines 126-129: flips the UI
is_running property and touches nothing else. -/
def toggle_timer (s : AppState) : AppState :=
  { s with is_running := !s.is_running }

/-- on_reset_timer callback, main.rs lines 133-143: forces Work mode,
full work duration, and stops the clock.  sessions_completed is not
touched. -/
def reset_timer (s : AppState) : AppState :=
  { s with mode := Mode.Work
           seconds_left := s.config.work_m * 60
           is_running := false }

/-- on_select_file callback, main.rs lines 116-124, with the file picker
outcome as input: a chosen path replaces config.alarm_path; nothing else
changes. -/
def select_file (s : AppState) (path : String) : AppState :=
  { s with config := { s.config with alarm_path := path } }

/-- One user-or-timer operation on the state. -/
inductive Op where
  | advance
  | settings (work short long : String)
  | toggle
  | reset
  | selectFile (path : String)
deriving DecidableEq

/-- Apply one operation to the state (the tick's completion event is
dropped here; run_ticks keeps it where a claim needs it). -/
def step (s : AppState) : Op → AppState
  | Op.advance => (tick s).1
  | Op.settings w sh l => settings_changed s w sh l
  | Op.toggle => toggle_timer s
  | Op.reset => reset_timer s
  | Op.selectFile p => select_file s p

/-- Apply a sequence of operations from left to right. -/
def run (s : AppState) (ops : List Op) : AppState :=
  ops.foldl step s

/-- Iterate the tick closure n times, collecting the phase-completion
events in order. -/
def run_ticks : Nat → AppState → AppState × List (Mode × String)
  | 0, s => (s, [])
  | n + 1, s =>
    let r := tick s
    let rest := run_ticks n r.1
    (rest.1, r.2.toList ++ rest.2)

/-- Projection of a trace to the break phases entered at Work
completions, in order. -/
def breakSeq (tr : List (Mode × String)) : List Mode :=
  (tr.filter fun e => decide (e.1 ≠ Mode.Work)).map Prod.fst

/-- Progress fraction as specified: remaining seconds over the full
duration of the current phase.  The code reports this quantity as an f32
(main.rs line 160); rounding to f32 is monotone and exact at 1.0, so the
exact rational carries the order and endpoint facts the spec states. -/
def progress (s : AppState) : ℚ :=
  (s.seconds_left : ℚ) / ((duration_for s.config s.mode * 60 : Int) : ℚ)

/-- A settings text field is harmless when it either fails to parse as an
i32 or parses to a strictly positive value. -/
def PosOrFail (str : String) : Prop :=
  ∀ v : Int, parseI32 str = some v → 0 < v

/-- All three configured durations are strictly positive. -/
def PosCfg (c : AppConfig) : Prop :=
  0 < c.work_m ∧ 0 < c.short_m ∧ 0 < c.long_m

set_option maxRecDepth 10000

/-- One-minute-everything config used by the concrete runs the spec's
examples describe. -/
def cfg1 : AppConfig := { work_m := 1, short_m := 1, long_m := 1, alarm_path := "alarm.mp3" }

/-- Fresh running Focus state for cfg1. -/
def fresh1 : AppState := { init_state cfg1 with is_running := true }

lemma tick_not_running (s : AppState) (h : s.is_running = false) :
    tick s = (s, none) := by
  simp [tick, h]

lemma tick_decr (s : AppState) (hr : s.is_running = true) (h : 0 < s.seconds_left) :
    tick s = ({ s with seconds_left := s.seconds_left - 1 }, none) := by
  simp [tick, hr, h]

lemma tick_work_long (s : AppState) (hr : s.is_running = true)
    (h : ¬ 0 < s.seconds_left) (hm : s.mode = Mode.Work)
    (h4 : (s.sessions_completed + 1) % 4 = 0) :
    tick s = ({ s with mode := Mode.LongBreak
                       seconds_left := s.config.long_m * 60
                       sessions_completed := s.sessions_completed + 1 },
              some (Mode.LongBreak, "Phase Complete!")) := by
  simp [tick, hr, h, hm, h4]

lemma tick_work_short (s : AppState) (hr : s.is_running = true)
    (h : ¬ 0 < s.seconds_left) (hm : s.mode = Mode.Work)
    (h4 : ¬ (s.sessions_completed + 1) % 4 = 0) :
    tick s = ({ s with mode := Mode.ShortBreak
                       seconds_left := s.config.short_m * 60
                       sessions_completed := s.sessions_completed + 1 },
              some (Mode.ShortBreak, "Phase Complete!")) := by
  simp [tick, hr, h, hm, h4]

lemma tick_break (s : AppState) (hr : s.is_running = true)
    (h : ¬ 0 < s.seconds_left) (hm : s.mode ≠ Mode.Work) :
    tick s = ({ s with mode := Mode.Work, seconds_left := s.config.work_m * 60 },
              some (Mode.Work, "Get to Work!")) := by
  cases hmode : s.mode
  · exact absurd hmode hm
  · simp [tick, hr, h, hmode]
  · simp [tick, hr, h, hmode]

lemma tick_config (s : AppState) : (tick s).1.config = s.config := by
  cases hrun : s.is_running <;> cases hm : s.mode <;>
    by_cases h : s.seconds_left > 0 <;>
      by_cases h4 : (s.sessions_completed + 1) % 4 = 0 <;>
        simp [tick, hrun, hm, h, h4]

lemma tick_running (s : AppState) : (tick s).1.is_running = s.is_running := by
  cases hrun : s.is_running <;> cases hm : s.mode <;>
    by_cases h : s.seconds_left > 0 <;>
      by_cases h4 : (s.sessions_completed + 1) % 4 = 0 <;>
        simp [tick, hrun, hm, h, h4]

lemma run_ticks_add (a b : Nat) (s : AppState) :
    run_ticks (a + b) s =
      ((run_ticks b (run_ticks a s).1).1,
       (run_ticks a s).2 ++ (run_ticks b (run_ticks a s).1).2) := by
  induction a generalizing s with
  | zero => simp [run_ticks]
  | succ n ih =>
    have hs : n + 1 + b = (n + b) + 1 := by omega
    rw [hs]
    simp only [run_ticks, ih, List.append_assoc]

lemma run_ticks_countdown (n : Nat) (s : AppState) (hr : s.is_running = true)
    (h : (n : Int) ≤ s.seconds_left) :
    run_ticks n s = ({ s with seconds_left := s.seconds_left - n }, []) := by
  induction n generalizing s with
  | zero => simp [run_ticks]
  | succ n ih =>
    have hpos : 0 < s.seconds_left := by
      have : ((n + 1 : Nat) : Int) = (n : Int) + 1 := by push_cast; ring
      omega
    have htick := tick_decr s hr hpos
    have hrest := ih { s with seconds_left := s.seconds_left - 1 } hr
      (by simp only; omega)
    have harith : s.seconds_left - 1 - (n : Int) = s.seconds_left - ((n + 1 : Nat) : Int) := by
      push_cast; ring
    simp [run_ticks, htick, hrest, harith]

/-- C1: while the clock is running, a tick with seconds_left > 0 only
decrements seconds_left by one (no phase change, no event); a tick with
seconds_left = 0 fires exactly one completion event, changes the phase,
and sets seconds_left to the new phase's full duration in seconds with no
decrement on that tick. -/
theorem C1_tick_decrement_or_completion (s : AppState) (hr : s.is_running = true) :
    (0 < s.seconds_left →
      tick s = ({ s with seconds_left := s.seconds_left - 1 }, none)) ∧
    (s.seconds_left = 0 →
      (tick s).2.isSome = true ∧
      (tick s).1.mode ≠ s.mode ∧
      (tick s).1.seconds_left = duration_for s.config ((tick s).1.mode) * 60 ∧
      (tick s).1.config = s.config) := by
  constructor
  · intro h
    exact tick_decr s hr h
  · intro h0
    have hnot : ¬ 0 < s.seconds_left := by omega
    cases hmode : s.mode with
    | Work =>
      by_cases h4 : (s.sessions_completed + 1) % 4 = 0
      · rw [tick_work_long s hr hnot hmode h4]
        simp [duration_for, hmode]
      · rw [tick_work_short s hr hnot hmode h4]
        simp [duration_for, hmode]
    | ShortBreak =>
      rw [tick_break s hr hnot (by simp [hmode])]
      simp [duration_for, hmode]
    | LongBreak =>
      rw [tick_break s hr hnot (by simp [hmode])]
      simp [duration_for, hmode]

/-- Witness for C1 at concrete states: a running tick at 60 seconds
decrements, and a running tick at 0 seconds fires an event. -/
theorem C1_witness :
    tick fresh1 = ({ fresh1 with seconds_left := fresh1.seconds_left - 1 }, none) ∧
    (tick { fresh1 with seconds_left := 0 }).2.isSome = true :=
  ⟨(C1_tick_decrement_or_completion fresh1 (by decide)).1 (by decide),
   ((C1_tick_decrement_or_completion { fresh1 with seconds_left := 0 } (by decide)).2 rfl).1⟩

/-- C2: a completing Focus phase increments the session count and picks
LongBreak exactly when the new count is a multiple of 4 (body "Phase
Complete!" in both variants); a completing break keeps the count and
returns to Focus with body "Get to Work!"; from count 0 the breaks of
five consecutive cycles are Short, Short, Short, Long, Short. -/
theorem C2_phase_scheduler (s : AppState) (hr : s.is_running = true)
    (h0 : s.seconds_left = 0) :
    (s.mode = Mode.Work →
      (tick s).1.sessions_completed = s.sessions_completed + 1 ∧
      ((tick s).1.mode = Mode.LongBreak ↔ (s.sessions_completed + 1) % 4 = 0) ∧
      ((tick s).1.mode = Mode.ShortBreak ↔ ¬ (s.sessions_completed + 1) % 4 = 0) ∧
      (tick s).2 = some ((tick s).1.mode, "Phase Complete!")) ∧
    (s.mode ≠ Mode.Work →
      (tick s).1.sessions_completed = s.sessions_completed ∧
      (tick s).1.mode = Mode.Work ∧
      (tick s).2 = some (Mode.Work, "Get to Work!")) ∧
    breakSeq (run_ticks 549 fresh1).2 =
      [Mode.ShortBreak, Mode.ShortBreak, Mode.ShortBreak, Mode.LongBreak, Mode.ShortBreak] := by
  have hnot : ¬ 0 < s.seconds_left := by omega
  refine ⟨?_, ?_, by decide⟩
  · intro hm
    by_cases h4 : (s.sessions_completed + 1) % 4 = 0
    · rw [tick_work_long s hr hnot hm h4]
      simp [h4]
    · rw [tick_work_short s hr hnot hm h4]
      simp [h4]
  · intro hm
    rw [tick_break s hr hnot hm]
    simp

/-- Witness for C2 at a concrete completing Focus state with count 0. -/
theorem C2_witness :
    (tick { fresh1 with seconds_left := 0 }).1.sessions_completed = 1 ∧
    (tick { fresh1 with seconds_left := 0 }).1.mode = Mode.ShortBreak := by
  have h := (C2_phase_scheduler { fresh1 with seconds_left := 0 } (by decide) rfl).1 rfl
  exact ⟨h.1, h.2.2.1.mpr (by decide)⟩

/-- C5: reset always yields Work mode, full work duration, stopped clock,
and leaves the session count and the configuration unchanged. -/
theorem C5_reset_effects (s : AppState) :
    (reset_timer s).mode = Mode.Work ∧
    (reset_timer s).seconds_left = s.config.work_m * 60 ∧
    (reset_timer s).is_running = false ∧
    (reset_timer s).sessions_completed = s.sessions_completed ∧
    (reset_timer s).config = s.config := by
  simp [reset_timer]

/-- C6: a settings change never touches the mode or the session count and
always stores the parsed durations (falling back per field to the
previous value on a parse failure); while stopped it recomputes
seconds_left for the active mode from the new duration, while running it
leaves seconds_left unchanged. -/
theorem C6_settings_effects (s : AppState) (w sh l : String) :
    (settings_changed s w sh l).mode = s.mode ∧
    (settings_changed s w sh l).sessions_completed = s.sessions_completed ∧
    (settings_changed s w sh l).config.work_m = (parseI32 w).getD s.config.work_m ∧
    (settings_changed s w sh l).config.short_m = (parseI32 sh).getD s.config.short_m ∧
    (settings_changed s w sh l).config.long_m = (parseI32 l).getD s.config.long_m ∧
    (s.is_running = false →
      (settings_changed s w sh l).seconds_left =
        duration_for (settings_changed s w sh l).config s.mode * 60) ∧
    (s.is_running = true →
      (settings_changed s w sh l).seconds_left = s.seconds_left) := by
  by_cases hr : s.is_running = false <;> simp [settings_changed, hr]

/-- Witness for C6: a settings edit to 2/3/4 minutes on the stopped fresh
default state retargets seconds_left to the new active-phase duration,
and the same edit on the started state leaves seconds_left at 1500. -/
theorem C6_witness :
    (settings_changed (init_state AppConfig.default) "2" "3" "4").seconds_left =
      duration_for (settings_changed (init_state AppConfig.default) "2" "3" "4").config
        (init_state AppConfig.default).mode * 60 ∧
    (settings_changed (toggle_timer (init_state AppConfig.default)) "2" "3" "4").seconds_left =
      (toggle_timer (init_state AppConfig.default)).seconds_left :=
  ⟨(C6_settings_effects (init_state AppConfig.default) "2" "3" "4").2.2.2.2.2.1 rfl,
   (C6_settings_effects (toggle_timer (init_state AppConfig.default)) "2" "3" "4").2.2.2.2.2.2 rfl⟩

/-- C10: the tick closure never writes the running flag (in particular
the clock stays running across a phase completion), and neither does a
settings change or a file selection; only toggle (which flips it) and
reset (which clears it) write it. -/
theorem C10_running_flag_ownership (s : AppState) (w sh l p : String) :
    (tick s).1.is_running = s.is_running ∧
    (settings_changed s w sh l).is_running = s.is_running ∧
    (select_file s p).is_running = s.is_running ∧
    (toggle_timer s).is_running = !s.is_running ∧
    (reset_timer s).is_running = false := by
  refine ⟨tick_running s, ?_, ?_, ?_, ?_⟩ <;>
    by_cases hr : s.is_running = false <;>
      simp [settings_changed, select_file, toggle_timer, reset_timer, hr]

/-- Counterexample to C3 as stated: with a 1-minute focus duration,
60 ticks from the fresh running Focus state produce no completion event
at all (the state sits at seconds_left = 0, still in Work mode with
count 0); the completion only fires on the 61st tick. -/
theorem C3_counterexample :
    ¬ ((run_ticks 60 fresh1).2.length = 1 ∧
       (run_ticks 60 fresh1).1.sessions_completed = 1 ∧
       (run_ticks 60 fresh1).1.mode = Mode.ShortBreak ∧
       (run_ticks 60 fresh1).1.seconds_left = 60) := by
  decide

/-- C3 amended: from a fresh running Focus state it takes
focus_minutes * 60 + 1 ticks (not focus_minutes * 60) to complete the
phase; that many ticks yield exactly one completion event and increment
the session count by one, and with the all-one-minute config 61 ticks
end in ShortBreak with seconds_left = 60 and count 1. -/
theorem C3_focus_phase_completes (cfg : AppConfig) (p : Int) (m : Nat) (_hm : 0 < m)
    (hw : cfg.work_m = (m : Int)) :
    ((run_ticks (m * 60 + 1)
        { seconds_left := cfg.work_m * 60, mode := Mode.Work,
          sessions_completed := p, config := cfg, is_running := true }).2.length = 1 ∧
     (run_ticks (m * 60 + 1)
        { seconds_left := cfg.work_m * 60, mode := Mode.Work,
          sessions_completed := p, config := cfg, is_running := true }).1.sessions_completed
       = p + 1) ∧
    run_ticks 61 fresh1 =
      ({ seconds_left := 60, mode := Mode.ShortBreak, sessions_completed := 1,
         config := cfg1, is_running := true }, [(Mode.ShortBreak, "Phase Complete!")]) := by
  refine ⟨?_, by decide⟩
  set s0 : AppState :=
    { seconds_left := cfg.work_m * 60, mode := Mode.Work,
      sessions_completed := p, config := cfg, is_running := true } with hs0
  have hle : ((m * 60 : Nat) : Int) ≤ s0.seconds_left := by
    simp [hs0, hw]
  have hcd := run_ticks_countdown (m * 60) s0 rfl hle
  rw [run_ticks_add (m * 60) 1 s0, hcd]
  set s1 : AppState := { s0 with seconds_left := s0.seconds_left - ((m * 60 : Nat) : Int) }
    with hs1
  have hsl1 : s1.seconds_left = 0 := by
    simp [hs1, hs0, hw]
  have hnot : ¬ 0 < s1.seconds_left := by omega
  by_cases h4 : (s1.sessions_completed + 1) % 4 = 0
  · have ht := tick_work_long s1 rfl hnot rfl h4
    simp [run_ticks, ht]
  · have ht := tick_work_short s1 rfl hnot rfl h4
    simp [run_ticks, ht]

/-- Witness for C3 amended at the one-minute config: 61 ticks complete
the first focus session. -/
theorem C3_witness :
    (run_ticks (1 * 60 + 1) fresh1).2.length = 1 ∧
    (run_ticks (1 * 60 + 1) fresh1).1.sessions_completed = 0 + 1 :=
  (C3_focus_phase_completes cfg1 0 1 (by decide) rfl).1

lemma posOrFail_some (str : String) (v0 : Int) (h : parseI32 str = some v0)
    (hv : 0 < v0) : PosOrFail str := by
  intro v hv'
  rw [h] at hv'
  injection hv' with he
  omega

/-- States reachable from an initial state with strictly positive
durations when every settings edit happens while the clock is stopped
and every duration field that parses does so to a positive value. -/
inductive GoodReach : AppState → Prop
  | init (cfg : AppConfig) (h : PosCfg cfg) : GoodReach (init_state cfg)
  | advance (s : AppState) (h : GoodReach s) : GoodReach (tick s).1
  | toggle (s : AppState) (h : GoodReach s) : GoodReach (toggle_timer s)
  | reset (s : AppState) (h : GoodReach s) : GoodReach (reset_timer s)
  | selectFile (s : AppState) (p : String) (h : GoodReach s) :
      GoodReach (select_file s p)
  | settings (s : AppState) (w sh l : String) (h : GoodReach s)
      (hrun : s.is_running = false)
      (hw : PosOrFail w) (hsh : PosOrFail sh) (hl : PosOrFail l) :
      GoodReach (settings_changed s w sh l)

lemma goodReach_inv (s : AppState) (h : GoodReach s) :
    PosCfg s.config ∧ 0 ≤ s.seconds_left ∧
      s.seconds_left ≤ duration_for s.config s.mode * 60 := by
  induction h with
  | init cfg hp =>
    obtain ⟨h1, h2, h3⟩ := hp
    refine ⟨⟨h1, h2, h3⟩, ?_, ?_⟩ <;> (simp [init_state, duration_for]; try omega)
  | advance s h ih =>
    obtain ⟨hcfg, h0, hub⟩ := ih
    by_cases hr : s.is_running = false
    · rw [tick_not_running s hr]
      exact ⟨hcfg, h0, hub⟩
    · have hr' : s.is_running = true := by simp at hr; exact hr
      by_cases hp : 0 < s.seconds_left
      · rw [tick_decr s hr' hp]
        exact ⟨hcfg, by simp; omega, by simp; omega⟩
      · obtain ⟨hw, hsh, hl⟩ := hcfg
        cases hm : s.mode with
        | Work =>
          by_cases h4 : (s.sessions_completed + 1) % 4 = 0
          · rw [tick_work_long s hr' hp hm h4]
            exact ⟨⟨hw, hsh, hl⟩, by simp; omega, by simp [duration_for]⟩
          · rw [tick_work_short s hr' hp hm h4]
            exact ⟨⟨hw, hsh, hl⟩, by simp; omega, by simp [duration_for]⟩
        | ShortBreak =>
          rw [tick_break s hr' hp (by simp [hm])]
          exact ⟨⟨hw, hsh, hl⟩, by simp; omega, by simp [duration_for]⟩
        | LongBreak =>
          rw [tick_break s hr' hp (by simp [hm])]
          exact ⟨⟨hw, hsh, hl⟩, by simp; omega, by simp [duration_for]⟩
  | toggle s h ih =>
    exact ih
  | reset s h ih =>
    obtain ⟨⟨hw, hsh, hl⟩, h0, hub⟩ := ih
    exact ⟨⟨hw, hsh, hl⟩, by simp [reset_timer]; omega, by simp [reset_timer, duration_for]⟩
  | selectFile s p h ih =>
    obtain ⟨⟨hw, hsh, hl⟩, h0, hub⟩ := ih
    refine ⟨⟨hw, hsh, hl⟩, h0, ?_⟩
    cases hm : s.mode <;>
      simp [select_file, duration_for, hm] at hub ⊢ <;> omega
  | settings s w sh l h hrun hw hsh hl ih =>
    obtain ⟨⟨hcw, hcsh, hcl⟩, h0, hub⟩ := ih
    have hw' : 0 < (parseI32 w).getD s.config.work_m := by
      cases hpw : parseI32 w with
      | none => simpa using hcw
      | some v => simpa using hw v hpw
    have hsh' : 0 < (parseI32 sh).getD s.config.short_m := by
      cases hpw : parseI32 sh with
      | none => simpa using hcsh
      | some v => simpa using hsh v hpw
    have hl' : 0 < (parseI32 l).getD s.config.long_m := by
      cases hpw : parseI32 l with
      | none => simpa using hcl
      | some v => simpa using hl v hpw
    refine ⟨⟨by simpa [settings_changed, hrun] using hw',
             by simpa [settings_changed, hrun] using hsh',
             by simpa [settings_changed, hrun] using hl'⟩, ?_, ?_⟩ <;>
      cases hm : s.mode <;> simp [settings_changed, hrun, duration_for, hm] <;> omega

/-- Counterexample to C4 as stated: from the default initial state,
start the clock and then edit the work duration down to 1 minute while
running; seconds_left stays at 1500 but the active-phase bound becomes
60, so seconds_left leaves the interval [0, duration_for(phase)*60]. -/
theorem C4_counterexample :
    ¬ (0 ≤ (run (init_state AppConfig.default)
             [Op.toggle, Op.settings "1" "5" "15"]).seconds_left ∧
       (run (init_state AppConfig.default)
             [Op.toggle, Op.settings "1" "5" "15"]).seconds_left ≤
         duration_for
           (run (init_state AppConfig.default)
             [Op.toggle, Op.settings "1" "5" "15"]).config
           (run (init_state AppConfig.default)
             [Op.toggle, Op.settings "1" "5" "15"]).mode * 60) := by
  decide

/-- C4 amended: the interval invariant does hold on every state reachable
from an initial state with positive durations when each settings edit is
made while the clock is stopped and each duration field that parses does
so to a positive value (an edit made while running can push
seconds_left above the new bound, as the counterexample shows). -/
theorem C4_remaining_in_bounds (s : AppState) (h : GoodReach s) :
    0 ≤ s.seconds_left ∧
      s.seconds_left ≤ duration_for s.config s.mode * 60 :=
  (goodReach_inv s h).2

/-- Witness for C4 amended: a stopped settings edit from the default
initial state stays within bounds. -/
theorem C4_witness :
    0 ≤ (settings_changed (init_state AppConfig.default) "1" "5" "15").seconds_left ∧
    (settings_changed (init_state AppConfig.default) "1" "5" "15").seconds_left ≤
      duration_for (settings_changed (init_state AppConfig.default) "1" "5" "15").config
        (settings_changed (init_state AppConfig.default) "1" "5" "15").mode * 60 :=
  C4_remaining_in_bounds _
    (GoodReach.settings (init_state AppConfig.default) "1" "5" "15"
      (GoodReach.init AppConfig.default ⟨by decide, by decide, by decide⟩)
      rfl
      (posOrFail_some "1" 1 (by decide) (by decide))
      (posOrFail_some "5" 5 (by decide) (by decide))
      (posOrFail_some "15" 15 (by decide) (by decide)))

/-- Counterexample to C9 as stated: the settings callback accepts the
numeric entry "0" for the work duration verbatim (parse succeeds, so no
fallback fires), leaving a configuration whose work duration is not
strictly positive. -/
theorem C9_counterexample :
    ¬ (0 < (settings_changed (init_state (load_config none)) "0" "5" "15").config.work_m) := by
  decide

/-- States of the running program when the loaded config file is missing,
corrupt, or holds positive durations, and every settings entry either
fails to parse or parses to a positive value. -/
inductive PosReach : AppState → Prop
  | load (parsed : Option AppConfig) (h : ∀ c, parsed = some c → PosCfg c) :
      PosReach (init_state (load_config parsed))
  | advance (s : AppState) (h : PosReach s) : PosReach (tick s).1
  | toggle (s : AppState) (h : PosReach s) : PosReach (toggle_timer s)
  | reset (s : AppState) (h : PosReach s) : PosReach (reset_timer s)
  | selectFile (s : AppState) (p : String) (h : PosReach s) :
      PosReach (select_file s p)
  | settings (s : AppState) (w sh l : String) (h : PosReach s)
      (hw : PosOrFail w) (hsh : PosOrFail sh) (hl : PosOrFail l) :
      PosReach (settings_changed s w sh l)

/-- C9 amended: a missing or corrupt config file falls back to the
defaults 25/5/15, and all three durations stay strictly positive across
the run provided the loaded file (when readable) holds positive durations
and every settings entry either fails to parse or parses to a positive
value; a parseable non-positive entry such as "0" is stored verbatim and
breaks the invariant, as the counterexample shows. -/
theorem C9_durations_positive (s : AppState) (h : PosReach s) :
    (0 < s.config.work_m ∧ 0 < s.config.short_m ∧ 0 < s.config.long_m) ∧
    load_config none = AppConfig.default ∧
    (load_config none).work_m = 25 ∧ (load_config none).short_m = 5 ∧
    (load_config none).long_m = 15 := by
  refine ⟨?_, rfl, rfl, rfl, rfl⟩
  induction h with
  | load parsed hp =>
    cases parsed with
    | none => exact ⟨by decide, by decide, by decide⟩
    | some c => simpa [init_state, load_config] using hp c rfl
  | advance s h ih =>
    rw [tick_config]
    exact ih
  | toggle s h ih =>
    exact ih
  | reset s h ih =>
    exact ih
  | selectFile s p h ih =>
    simpa [select_file] using ih
  | settings s w sh l h hw hsh hl ih =>
    obtain ⟨hcw, hcsh, hcl⟩ := ih
    have hw' : 0 < (parseI32 w).getD s.config.work_m := by
      cases hpw : parseI32 w with
      | none => simpa using hcw
      | some v => simpa using hw v hpw
    have hsh' : 0 < (parseI32 sh).getD s.config.short_m := by
      cases hpw : parseI32 sh with
      | none => simpa using hcsh
      | some v => simpa using hsh v hpw
    have hl' : 0 < (parseI32 l).getD s.config.long_m := by
      cases hpw : parseI32 l with
      | none => simpa using hcl
      | some v => simpa using hl v hpw
    by_cases hrun : s.is_running = false <;>
      exact ⟨by simpa [settings_changed, hrun] using hw',
             by simpa [settings_changed, hrun] using hsh',
             by simpa [settings_changed, hrun] using hl'⟩

/-- Witness for C9 amended: the default-loaded state after a positive
settings edit keeps positive durations. -/
theorem C9_witness :
    (0 < (settings_changed (init_state (load_config none)) "30" "10" "20").config.work_m ∧
     0 < (settings_changed (init_state (load_config none)) "30" "10" "20").config.short_m ∧
     0 < (settings_changed (init_state (load_config none)) "30" "10" "20").config.long_m) ∧
    load_config none = AppConfig.default ∧
    (load_config none).work_m = 25 ∧ (load_config none).short_m = 5 ∧
    (load_config none).long_m = 15 :=
  C9_durations_positive _
    (PosReach.settings (init_state (load_config none)) "30" "10" "20"
      (PosReach.load none (by intro c hc; cases hc))
      (posOrFail_some "30" 30 (by decide) (by decide))
      (posOrFail_some "10" 10 (by decide) (by decide))
      (posOrFail_some "20" 20 (by decide) (by decide)))

/-- C7: across every operation the session count never decreases and
moves by at most one; on any state with nonnegative seconds_left it
increases (by exactly one) precisely on an advance of a running Focus
phase whose seconds_left is zero. -/
theorem C7_sessions_monotone (s : AppState) (op : Op) (h : 0 ≤ s.seconds_left) :
    s.sessions_completed ≤ (step s op).sessions_completed ∧
    ((step s op).sessions_completed = s.sessions_completed ∨
     (step s op).sessions_completed = s.sessions_completed + 1) ∧
    ((step s op).sessions_completed = s.sessions_completed + 1 ↔
      op = Op.advance ∧ s.is_running = true ∧ s.mode = Mode.Work ∧
        s.seconds_left = 0) := by
  cases op with
  | advance =>
    simp only [step]
    by_cases hr : s.is_running = false
    · rw [tick_not_running s hr]
      refine ⟨le_refl _, Or.inl rfl, ?_⟩
      simp [hr]
    · have hr' : s.is_running = true := by simp at hr; exact hr
      by_cases hp : 0 < s.seconds_left
      · rw [tick_decr s hr' hp]
        refine ⟨le_refl _, Or.inl rfl, ?_⟩
        constructor
        · intro habs
          simp at habs
        · rintro ⟨-, -, -, h0⟩
          omega
      · have h0 : s.seconds_left = 0 := by omega
        cases hm : s.mode with
        | Work =>
          by_cases h4 : (s.sessions_completed + 1) % 4 = 0
          · rw [tick_work_long s hr' hp hm h4]
            exact ⟨by simp, Or.inr rfl, by simp [hr', hm, h0]⟩
          · rw [tick_work_short s hr' hp hm h4]
            exact ⟨by simp, Or.inr rfl, by simp [hr', hm, h0]⟩
        | ShortBreak =>
          rw [tick_break s hr' hp (by simp [hm])]
          refine ⟨le_refl _, Or.inl rfl, ?_⟩
          simp [hm]
        | LongBreak =>
          rw [tick_break s hr' hp (by simp [hm])]
          refine ⟨le_refl _, Or.inl rfl, ?_⟩
          simp [hm]
  | settings w sh l =>
    simp only [step]
    by_cases hrun : s.is_running = false <;>
      exact ⟨by simp [settings_changed, hrun],
             Or.inl (by simp [settings_changed, hrun]),
             by simp [settings_changed, hrun]⟩
  | toggle =>
    refine ⟨le_refl _, Or.inl rfl, ?_⟩
    simp only [step]
    simp [toggle_timer]
  | reset =>
    refine ⟨le_refl _, Or.inl rfl, ?_⟩
    simp only [step]
    simp [reset_timer]
  | selectFile p =>
    refine ⟨le_refl _, Or.inl rfl, ?_⟩
    simp only [step]
    simp [select_file]

/-- Witness for C7 at a completing Focus state and at a toggle. -/
theorem C7_witness :
    ((step { fresh1 with seconds_left := 0 } Op.advance).sessions_completed =
        { fresh1 with seconds_left := 0 }.sessions_completed + 1 ↔
      (Op.advance = Op.advance ∧ { fresh1 with seconds_left := 0 }.is_running = true ∧
        { fresh1 with seconds_left := 0 }.mode = Mode.Work ∧
        { fresh1 with seconds_left := 0 }.seconds_left = 0)) ∧
    fresh1.sessions_completed ≤ (step fresh1 Op.toggle).sessions_completed :=
  ⟨(C7_sessions_monotone { fresh1 with seconds_left := 0 } Op.advance (by decide)).2.2,
   (C7_sessions_monotone fresh1 Op.toggle (by decide)).1⟩

/-- C8: with a positive configured duration, the progress fraction
remaining over full duration never increases across a tick that stays in
the current phase, and a tick that completes a phase leaves the fraction
at exactly 1 (the code reports it as an f32; rounding is monotone and
exact at 1.0, so the order and endpoint carry over). -/
theorem C8_progress_behavior (s : AppState) :
    (0 < duration_for s.config s.mode → (tick s).1.mode = s.mode →
      progress (tick s).1 ≤ progress s) ∧
    (s.is_running = true → s.seconds_left = 0 →
      0 < duration_for s.config ((tick s).1.mode) →
      progress (tick s).1 = 1) := by
  constructor
  · intro hd hmode
    by_cases hr : s.is_running = false
    · rw [tick_not_running s hr]
    · have hr' : s.is_running = true := by simp at hr; exact hr
      by_cases hp : 0 < s.seconds_left
      · rw [tick_decr s hr' hp]
        have hden : (0 : ℚ) < ((duration_for s.config s.mode * 60 : Int) : ℚ) := by
          have h60 : (0 : Int) < duration_for s.config s.mode * 60 := by omega
          exact_mod_cast h60
        have hnum : ((s.seconds_left - 1 : Int) : ℚ) ≤ ((s.seconds_left : Int) : ℚ) := by
          push_cast
          linarith
        simp only [progress]
        exact (div_le_div_iff_of_pos_right hden).mpr hnum
      · exfalso
        cases hm : s.mode with
        | Work =>
          by_cases h4 : (s.sessions_completed + 1) % 4 = 0
          · rw [tick_work_long s hr' hp hm h4] at hmode
            simp [hm] at hmode
          · rw [tick_work_short s hr' hp hm h4] at hmode
            simp [hm] at hmode
        | ShortBreak =>
          rw [tick_break s hr' hp (by simp [hm])] at hmode
          simp [hm] at hmode
        | LongBreak =>
          rw [tick_break s hr' hp (by simp [hm])] at hmode
          simp [hm] at hmode
  · intro hr0 h0 hd
    have hnot : ¬ 0 < s.seconds_left := by omega
    cases hm : s.mode with
    | Work =>
      by_cases h4 : (s.sessions_completed + 1) % 4 = 0
      · rw [tick_work_long s hr0 hnot hm h4] at hd ⊢
        simp [duration_for] at hd
        have hq : (0 : ℚ) < (s.config.long_m : ℚ) := by exact_mod_cast hd
        simp [progress, duration_for]
        rw [div_self (by positivity)]
      · rw [tick_work_short s hr0 hnot hm h4] at hd ⊢
        simp [duration_for] at hd
        have hq : (0 : ℚ) < (s.config.short_m : ℚ) := by exact_mod_cast hd
        simp [progress, duration_for]
        rw [div_self (by positivity)]
    | ShortBreak =>
      rw [tick_break s hr0 hnot (by simp [hm])] at hd ⊢
      simp [duration_for] at hd
      have hq : (0 : ℚ) < (s.config.work_m : ℚ) := by exact_mod_cast hd
      simp [progress, duration_for]
      rw [div_self (by positivity)]
    | LongBreak =>
      rw [tick_break s hr0 hnot (by simp [hm])] at hd ⊢
      simp [duration_for] at hd
      have hq : (0 : ℚ) < (s.config.work_m : ℚ) := by exact_mod_cast hd
      simp [progress, duration_for]
      rw [div_self (by positivity)]

/-- Witness for C8: one running decrement tick on the fresh one-minute
state does not increase the fraction, and the completion tick at zero
resets it to 1. -/
theorem C8_witness :
    progress (tick fresh1).1 ≤ progress fresh1 ∧
    progress (tick { fresh1 with seconds_left := 0 }).1 = 1 :=
  ⟨(C8_progress_behavior fresh1).1 (by decide) (by decide),
   (C8_progress_behavior { fresh1 with seconds_left := 0 }).2 rfl rfl (by decide)⟩
